import Mathlib

/-!
Verification development for the ai-gymnasium repository: a tabular
Q-learning agent (Mountain Car) and a DQN-style agent (Atari Breakout).
Numeric quantities are embedded over the rationals; the external
environment is an explicit input (step results passed as data).
-/

namespace MountainCar

/-- Hyperparameter from the source: learning_rate = 0.01. -/
def learning_rate : ℚ := 1/100

/-- Hyperparameter from the source: discount_rate = 0.99. -/
def discount_rate : ℚ := 99/100

/-- Hyperparameter from the source: epsillon_decay = 1 / max_episodes with
max_episodes = 10000. -/
def epsillon_decay : ℚ := 1/10000

/-- Hyperparameter from the source: discretize_array = [0.1, 0.01],
the per-dimension bin width. -/
def discretize_array : ℚ × ℚ := (1/10, 1/100)

/-- Hyperparameter from the source: optimazeReward = True (reward-shaping
switch). -/
def optimazeRewardFlag : Bool := true

/-- Hyperparameter from the source: optimazeRewardMultiplier = 2. -/
def optimazeRewardMultiplier : ℚ := 2

/-- Declared observation lower bounds of the external MountainCar-v0
environment: env.observation_space.low = (-1.2, -0.07). -/
def obs_low : ℚ × ℚ := (-6/5, -7/100)

/-- Declared observation upper bounds of the external MountainCar-v0
environment: env.observation_space.high = (0.6, 0.07). -/
def obs_high : ℚ × ℚ := (3/5, 7/100)

/-- Action count of the external MountainCar-v0 environment:
env.action_space.n = 3. -/
def numActions : ℕ := 3

/-- Rounding ties-to-even on exact rationals, the behaviour of np.round
(and Python round) on the values involved. -/
def roundHalfEven (q : ℚ) : ℤ :=
  if q - ⌊q⌋ < 1/2 then ⌊q⌋
  else if 1/2 < q - ⌊q⌋ then ⌊q⌋ + 1
  else if ⌊q⌋ % 2 = 0 then ⌊q⌋ else ⌊q⌋ + 1

/-- Embedding of Qtable.discretizeState: round((state - low) / bin_width)
per dimension.  Note the source applies no clamping. -/
def discretizeState (state : ℚ × ℚ) : ℤ × ℤ :=
  (roundHalfEven ((state.1 - obs_low.1) / discretize_array.1),
   roundHalfEven ((state.2 - obs_low.2) / discretize_array.2))

/-- Allocated table extent in dimension 0, from Qtable constructor:
round((high - low) / bin_width) + 1. -/
def tableDim0 : ℤ :=
  roundHalfEven ((obs_high.1 - obs_low.1) / discretize_array.1) + 1

/-- Allocated table extent in dimension 1, from Qtable constructor:
round((high - low) / bin_width) + 1. -/
def tableDim1 : ℤ :=
  roundHalfEven ((obs_high.2 - obs_low.2) / discretize_array.2) + 1

/-- The Q-table as a total map from (position bin, velocity bin, action)
to a rational value; np.zeros gives the all-zero starting table. -/
def Qtab : Type := ℤ → ℤ → ℤ → ℚ

/-- Starting table contents: np.zeros. -/
def qZero : Qtab := fun _ _ _ => 0

/-- Maximum of a list, matching np.max on a nonempty axis. -/
def listMax : List ℚ → ℚ
  | [] => 0
  | x :: xs => xs.foldl max x

/-- Embedding of np.max(self.qTable[i, j]): the maximum Q value over the
action axis at row (i, j). -/
def qMax (Q : Qtab) (i j : ℤ) : ℚ :=
  listMax (((List.range numActions).map (fun a => Q i j (a : ℤ))))

/-- Embedding of Qtable.optimazeReward with the global shaping switch as
an explicit argument: if the switch is False the raw reward passes
through, otherwise the reward is replaced by
discretize_next_state[0] * optimazeRewardMultiplier -
(len(qTable) * optimazeRewardMultiplier + 1), where len(qTable) is the
table extent in dimension 0. -/
def optimazeRewardWith (flag : Bool) (reward : ℚ) (ds2fst : ℤ) : ℚ :=
  if flag = false then reward
  else (ds2fst : ℚ) * optimazeRewardMultiplier -
       ((tableDim0 : ℚ) * optimazeRewardMultiplier + 1)

/-- The reward-shaping policy as the source runs it, with the global
switch (True) baked in. -/
def optimazeRewardVal (reward : ℚ) (ds2fst : ℤ) : ℚ :=
  optimazeRewardWith optimazeRewardFlag reward ds2fst

/-- Embedding of Qtable.train: discretize both states, shape the reward,
and add learning_rate * (shaped + discount_rate * max Q[ds2] - Q[ds1, a])
to the single entry (ds1, action). -/
def train (Q : Qtab) (state : ℚ × ℚ) (action : ℤ) (reward : ℚ)
    (next_state : ℚ × ℚ) : Qtab :=
  let ds1 := discretizeState state
  let ds2 := discretizeState next_state
  let optimazed_reward := optimazeRewardVal reward ds2.1
  let delta := learning_rate *
    (optimazed_reward + discount_rate * qMax Q ds2.1 ds2.2 -
      Q ds1.1 ds1.2 action)
  fun i j b =>
    if i = ds1.1 ∧ j = ds1.2 ∧ b = action then Q i j b + delta else Q i j b

/-- The bootstrapped target of the train update: shaped reward plus
discount_rate times the best next-state value, the quantity the update
moves Q[ds1, action] toward. -/
def qTarget (Q : Qtab) (reward : ℚ) (next_state : ℚ × ℚ) : ℚ :=
  optimazeRewardVal reward (discretizeState next_state).1
    + discount_rate *
      qMax Q (discretizeState next_state).1 (discretizeState next_state).2

/-- Embedding of Qtable.updateDone: assign the reward argument to the
single entry (ds(state), action). -/
def updateDone (Q : Qtab) (state : ℚ × ℚ) (action : ℤ) (reward : ℚ) :
    Qtab :=
  let ds := discretizeState state
  fun i j b =>
    if i = ds.1 ∧ j = ds.2 ∧ b = action then reward else Q i j b

/-- The terminal-step call sequence of the training loop (lines 119-124):
train on the transition, advance state to next_state, and since done is
set call updateDone(state, action, 0) with the literal reward 0. -/
def terminalStep (Q : Qtab) (state : ℚ × ℚ) (action : ℤ) (reward : ℚ)
    (next_state : ℚ × ℚ) : Qtab :=
  updateDone (train Q state action reward next_state) next_state action 0

/-- One pass of the epsillon update inside the step loop: when epsillon
is positive and the exploration draw succeeds, epsillon decreases by
epsillon_decay; otherwise it is unchanged.  The subtraction here is
exact rational arithmetic while the source subtracts float64 values, so
the accumulated long-run sequence of the source (which drifts by
rounding, reaching about 9.38e-14 after 10000 decrements and about
-1e-4 after 10001) is not reproduced; theorems therefore rely only on
the guard structure and on single-step facts whose truth is stable
under a tiny perturbation of the operands. -/
def epsStep (explore : Bool) (e : ℚ) : ℚ :=
  if 0 < e ∧ explore then e - epsillon_decay else e

/-- The epsillon value after a sequence of exploration draws. -/
def epsRun (e : ℚ) (bs : List Bool) : ℚ :=
  bs.foldl (fun acc b => epsStep b acc) e

end MountainCar

namespace Atari

/-- Hyperparameter from the source: gamma = 0.99. -/
def gamma : ℚ := 99/100

/-- Hyperparameter from the source: frames_to_skip = 4. -/
def frames_to_skip : ℕ := 4

/-- Hyperparameter from the source: epsilon_decay = 1 / (max_episodes * 0.8)
with max_episodes = 5000 at the point of definition, so 1/4000. -/
def epsilon_decay : ℚ := 1 / (5000 * (8/10))

/-- Hyperparameter from the source: epsilon_terminal_value = 0.01. -/
def epsilon_terminal_value : ℚ := 1/100

/-- Parameter state of the Model object: the weight vector of the online
network (self.model) and of its clone (self.clone).  Weights are an
abstract flat list of rationals; the claims under study concern only
which of the two sets an operation writes. -/
structure ModelState where
  modelW : List ℚ
  cloneW : List ℚ
deriving DecidableEq, Repr

/-- Embedding of Model.update_weights:
self.model.set_weights(self.clone.get_weights()) writes the clone
weights into the online network and leaves the clone untouched. -/
def update_weights (s : ModelState) : ModelState :=
  { s with modelW := s.cloneW }

/-- Embedding of one optimizer application:
optimizer.apply_gradients(zip(grads, model.trainable_variables)) adjusts
each trainable variable of the online network by its gradient. -/
def applyGradients (w g : List ℚ) : List ℚ :=
  List.zipWith (fun wi gi => wi - gi) w g

/-- Embedding of Model.train.  The loss gradient is produced by
tape.gradient(loss, self.model.trainable_variables); automatic
differentiation itself is a library internal, so the gradient computation
is an explicit argument gradFn reading the online weights, the clone
weights, the reward and the frame-stack tensor — exactly the data the
source computation reads.  The resulting gradients are applied to the
online weights only. -/
def Model.train (gradFn : List ℚ → List ℚ → ℚ → List ℚ → List ℚ)
    (reward : ℚ) (time_series : List ℚ) (s : ModelState) : ModelState :=
  { s with
    modelW := applyGradients s.modelW (gradFn s.modelW s.cloneW reward time_series) }

/-- Operations invoked on the Model object after construction. -/
inductive MOp where
  | callOp (x : List ℚ)
  | trainOp (gradFn : List ℚ → List ℚ → ℚ → List ℚ → List ℚ)
      (reward : ℚ) (x : List ℚ)
  | updateWeightsOp

/-- Effect of one Model operation on the parameter state; __call__ is a
pure forward pass through self.model and writes nothing. -/
def applyMOp (s : ModelState) : MOp → ModelState
  | MOp.callOp _ => s
  | MOp.trainOp gradFn r x => Model.train gradFn r x s
  | MOp.updateWeightsOp => update_weights s

/-- Parameter state after a sequence of Model operations. -/
def runMOps (s : ModelState) (ops : List MOp) : ModelState :=
  ops.foldl applyMOp s

/-- One result of env.step: the reward and the two termination flags. -/
structure AStep where
  reward : ℚ
  terminated : Bool
  truncated : Bool
deriving DecidableEq, Repr

/-- Embedding of the inner while loop of the Atari training loop, counting
env.step calls in one episode.  Each iteration increments step and calls
env.step once; the script lists the results env.step returns in order.
On a frame-skipped iteration (step % frames_to_skip ≠ 0) the source reads
the termination flags but never updates done, so the loop keeps going; on
a decision iteration done is set from terminated or truncated and the
loop stops when it is true. -/
def envStepsTaken (stepc : ℕ) : List AStep → ℕ
  | [] => 0
  | r :: rest =>
    if (stepc + 1) % frames_to_skip ≠ 0 then
      1 + envStepsTaken (stepc + 1) rest
    else if r.terminated || r.truncated then 1
    else 1 + envStepsTaken (stepc + 1) rest

/-- Embedding of the post-episode epsilon decay (the source lines guarded
by epsilon > 0 and total_frames > 10000): subtract epsilon_decay, then
set epsilon to 0 once it falls below epsilon_terminal_value. -/
def epsilonStep (total_frames : ℕ) (e : ℚ) : ℚ :=
  if 0 < e ∧ 10000 < total_frames then
    if e - epsilon_decay < epsilon_terminal_value then 0
    else e - epsilon_decay
  else e

/-- The epsilon value after a sequence of episodes, given the running
total_frames count at each episode end. -/
def epsilonRun (e : ℚ) (fss : List ℕ) : ℚ :=
  fss.foldl (fun acc fs => epsilonStep fs acc) e

end Atari

namespace MountainCar

/-- Evaluation of the allocated extent in dimension 0. -/
lemma tableDim0_eq : tableDim0 = 19 := by
  norm_num [tableDim0, roundHalfEven, obs_high, obs_low, discretize_array]

/-- Evaluation of the allocated extent in dimension 1. -/
lemma tableDim1_eq : tableDim1 = 15 := by
  norm_num [tableDim1, roundHalfEven, obs_high, obs_low, discretize_array]

/-- Evaluation of the discretizer at a state 0.1 below the declared
position lower bound. -/
lemma discretizeState_below_low :
    discretizeState (-13/10, 0) = (-1, 7) := by
  norm_num [discretizeState, roundHalfEven, obs_low, discretize_array]

/-- Evaluation of the discretizer at the goal-crossing state. -/
lemma discretizeState_goal :
    discretizeState (3/5, 1/50) = (18, 9) := by
  norm_num [discretizeState, roundHalfEven, obs_low, discretize_array]

/-- Value of the trained entry. -/
lemma train_at (Q : Qtab) (s : ℚ × ℚ) (a : ℤ) (r : ℚ) (s2 : ℚ × ℚ) :
    train Q s a r s2 (discretizeState s).1 (discretizeState s).2 a
      = Q (discretizeState s).1 (discretizeState s).2 a
        + learning_rate *
          (optimazeRewardVal r (discretizeState s2).1
            + discount_rate *
              qMax Q (discretizeState s2).1 (discretizeState s2).2
            - Q (discretizeState s).1 (discretizeState s).2 a) := by
  simp [train]

/-- Entries other than the trained one keep their value. -/
lemma train_ne (Q : Qtab) (s : ℚ × ℚ) (a : ℤ) (r : ℚ) (s2 : ℚ × ℚ)
    (i j b : ℤ)
    (h : ¬ (i = (discretizeState s).1 ∧ j = (discretizeState s).2 ∧ b = a)) :
    train Q s a r s2 i j b = Q i j b := by
  simp only [train]
  rw [if_neg h]

/-- Value of the entry written by updateDone. -/
lemma updateDone_at (Q : Qtab) (s : ℚ × ℚ) (a : ℤ) (r : ℚ) :
    updateDone Q s a r (discretizeState s).1 (discretizeState s).2 a = r := by
  simp [updateDone]

/-- Entries other than the one written by updateDone keep their value. -/
lemma updateDone_ne (Q : Qtab) (s : ℚ × ℚ) (a : ℤ) (r : ℚ) (i j b : ℤ)
    (h : ¬ (i = (discretizeState s).1 ∧ j = (discretizeState s).2 ∧ b = a)) :
    updateDone Q s a r i j b = Q i j b := by
  simp only [updateDone]
  rw [if_neg h]

/-- With a nonpositive epsillon the guard fails and the step is a
no-op: the loop has no path that raises epsillon back up. -/
lemma epsStep_frozen (b : Bool) (e : ℚ) (h : e ≤ 0) : epsStep b e = e := by
  simp only [epsStep]
  rw [if_neg]
  rintro ⟨h1, _⟩
  exact absurd h1 (not_lt.mpr h)

/-- From a nonpositive epsillon every run leaves the value exactly where
it is. -/
lemma epsRun_frozen :
    ∀ (bs : List Bool) (e : ℚ), e ≤ 0 → epsRun e bs = e := by
  intro bs
  induction bs with
  | nil => exact fun e _ => rfl
  | cons b rest ih =>
    intro e h
    have hrun : epsRun e (b :: rest) = epsRun (epsStep b e) rest := rfl
    rw [hrun, epsStep_frozen b e h]
    exact ih e h

end MountainCar

namespace MountainCar

/-- Evaluation of the discretizer at the origin state. -/
lemma discretizeState_zero : discretizeState (0, 0) = (12, 7) := by
  norm_num [discretizeState, roundHalfEven, obs_low, discretize_array]

/-- On the all-zero table the best action value is 0. -/
lemma qMax_qZero (i j : ℤ) : qMax qZero i j = 0 := rfl

/-- Evaluation of the bootstrapped target on the all-zero table at the
origin state with raw reward 0. -/
lemma qTarget_qZero_eval : qTarget qZero 0 (0, 0) = -15 := by
  simp only [qTarget, discretizeState_zero, qMax_qZero,
    optimazeRewardVal, optimazeRewardWith, optimazeRewardFlag,
    optimazeRewardMultiplier, tableDim0_eq]
  norm_num

end MountainCar

open MountainCar Atari

/-- Claim C1: the spec requires the discretized index of every raw
observation, including observations outside the declared bounds, to be
clamped into [0, tableDim0) in every dimension.  The source applies no
clamping: at the observation (-1.3, 0), 0.1 below the declared position
lower bound, the dimension-0 index is -1, outside [0, tableDim0). -/
theorem discretizeState_no_clamping :
    (discretizeState (-13/10, 0)).1 = -1
    ∧ ¬ (0 ≤ (discretizeState (-13/10, 0)).1
         ∧ (discretizeState (-13/10, 0)).1 < tableDim0) := by
  rw [discretizeState_below_low]
  norm_num

/-- Claim C2: the spec has sync_target copy the online parameters into
the target (clone) network.  Evaluated at online weights [1] and clone
weights [2], Model.update_weights instead writes the clone weights into
the online network: both parameter sets end at [2], and the clone never
receives the online value [1]. -/
theorem update_weights_copies_clone_into_online :
    (update_weights ⟨[1], [2]⟩).modelW = [2]
    ∧ (update_weights ⟨[1], [2]⟩).cloneW = [2]
    ∧ (update_weights ⟨[1], [2]⟩).cloneW ≠ [1] := by
  refine ⟨rfl, rfl, ?_⟩
  simp [update_weights]

/-- Claim C3: Qtable.train adds
learning_rate * (shaped reward + discount_rate * max next-state value -
old value) to the single entry (ds(state), action) and leaves every
other entry of the table unchanged. -/
theorem train_touches_single_entry :
    ∀ (Q : Qtab) (s : ℚ × ℚ) (a : ℤ) (r : ℚ) (s2 : ℚ × ℚ),
      train Q s a r s2 (discretizeState s).1 (discretizeState s).2 a
        = Q (discretizeState s).1 (discretizeState s).2 a
          + learning_rate *
            (optimazeRewardVal r (discretizeState s2).1
              + discount_rate *
                qMax Q (discretizeState s2).1 (discretizeState s2).2
              - Q (discretizeState s).1 (discretizeState s).2 a)
      ∧ ∀ i j b : ℤ,
          ¬ (i = (discretizeState s).1 ∧ j = (discretizeState s).2 ∧ b = a) →
          train Q s a r s2 i j b = Q i j b :=
  fun Q s a r s2 =>
    ⟨train_at Q s a r s2, fun i j b h => train_ne Q s a r s2 i j b h⟩

/-- Witness for claim C3 at the all-zero table: the entry (5, 5, 1) is
untouched by a train call whose written entry is (ds (0,0), 0). -/
theorem train_touches_single_entry_witness :
    train qZero (0, 0) 0 (-1) (0, 0) 5 5 1 = qZero 5 5 1 :=
  (train_touches_single_entry qZero (0, 0) 0 (-1) (0, 0)).2 5 5 1
    (by norm_num)

/-- Claim C4: the spec requires the episode to end, with no further
environment step, as soon as env.step reports terminated or truncated.
In the frame-skip branch the source reads the flags but never updates
done: with a script whose first step (a frame-skipped one, since
1 % frames_to_skip ≠ 0) reports terminated = true, the loop still takes
a second environment step. -/
theorem frame_skip_steps_after_termination :
    (⟨0, true, false⟩ : AStep).terminated = true
    ∧ envStepsTaken 0 [⟨0, true, false⟩, ⟨0, false, false⟩] = 2 :=
  ⟨rfl, rfl⟩

/-- Claim C5 (amended): Qtable.updateDone assigns exactly its reward
argument to the entry (ds(state), action), overwriting the previous
value with no bootstrap term and leaving all other entries unchanged;
the terminal call site of the training loop passes the literal 0, so
the stored terminal value is 0 regardless of the realized reward. -/
theorem updateDone_assigns_reward_argument :
    (∀ (Q : Qtab) (s : ℚ × ℚ) (a : ℤ) (r : ℚ),
        updateDone Q s a r (discretizeState s).1 (discretizeState s).2 a = r
        ∧ ∀ i j b : ℤ,
            ¬ (i = (discretizeState s).1 ∧ j = (discretizeState s).2 ∧ b = a) →
            updateDone Q s a r i j b = Q i j b)
    ∧ ∀ (Q : Qtab) (s : ℚ × ℚ) (a : ℤ) (r : ℚ) (ns : ℚ × ℚ),
        terminalStep Q s a r ns
          (discretizeState ns).1 (discretizeState ns).2 a = 0 :=
  ⟨fun Q s a r =>
    ⟨updateDone_at Q s a r, fun i j b h => updateDone_ne Q s a r i j b h⟩,
   fun Q s a r ns => updateDone_at (train Q s a r ns) ns a 0⟩

/-- Witness for claim C5 (amended): on the all-zero table the entry
(7, 7, 2) is untouched by an updateDone call writing (ds (0,0), 0), and
a concrete terminal step stores 0. -/
theorem updateDone_assigns_reward_argument_witness :
    updateDone qZero (0, 0) 0 5 7 7 2 = qZero 7 7 2
    ∧ terminalStep qZero (1/2, 1/100) 2 (-1) (3/5, 1/50)
        (discretizeState (3/5, 1/50)).1 (discretizeState (3/5, 1/50)).2 2
      = 0 :=
  ⟨(updateDone_assigns_reward_argument.1 qZero (0, 0) 0 5).2 7 7 2
      (by norm_num),
   updateDone_assigns_reward_argument.2 qZero (1/2, 1/100) 2 (-1)
      (3/5, 1/50)⟩

/-- Counterexample for claim C5: at a terminal transition whose realized
environment reward is -1, the value the loop stores for the terminal
state-action pair is 0, not the realized reward. -/
theorem terminal_update_stores_zero_not_reward :
    terminalStep qZero (1/2, 1/100) 2 (-1) (3/5, 1/50) 18 9 2 = 0
    ∧ terminalStep qZero (1/2, 1/100) 2 (-1) (3/5, 1/50) 18 9 2 ≠ -1 := by
  have hz : terminalStep qZero (1/2, 1/100) 2 (-1) (3/5, 1/50) 18 9 2 = 0 := by
    have h := updateDone_at
      (train qZero (1/2, 1/100) 2 (-1) (3/5, 1/50)) (3/5, 1/50) 2 0
    rw [discretizeState_goal] at h
    exact h
  exact ⟨hz, by rw [hz]; norm_num⟩

/-- Claim C6: the claim says the exploration value never becomes
negative and, once it crosses the terminal floor, stays exactly at the
floor.  The Mountain Car decrement has no clamp: from any positive
value smaller than epsillon_decay — and the float64 run reaches about
9.38e-14 after 10000 decrements by rounding drift — one more exploring
step drives epsillon negative, and the guard then freezes it at that
negative value for every later step, never at the floor.  Shown here at
the representative sub-decay value 1/10^13. -/
theorem epsillon_below_decay_goes_negative_and_freezes :
    epsStep true (1/10^13) < 0
    ∧ ∀ bs : List Bool,
        epsRun (epsStep true (1/10^13)) bs = epsStep true (1/10^13) := by
  have h : epsStep true (1/10^13) = 1/10^13 - 1/10000 := by
    simp only [epsStep, epsillon_decay]
    norm_num
  constructor
  · rw [h]
    norm_num
  · intro bs
    exact epsRun_frozen bs _ (by rw [h]; norm_num)

/-- Claim C7: with shaping enabled (the source setting) the reward fed
to the update rule equals
ds2[0] * optimazeRewardMultiplier -
(tableDim0 * optimazeRewardMultiplier + 1) for every transition,
ignoring the environment reward; with shaping disabled the raw reward
passes through unchanged.  The dimension-0 extent evaluates to 19. -/
theorem optimazeReward_formula_eval :
    (∀ (r : ℚ) (d : ℤ),
        optimazeRewardVal r d
          = (d : ℚ) * optimazeRewardMultiplier
            - ((tableDim0 : ℚ) * optimazeRewardMultiplier + 1))
    ∧ (∀ (r : ℚ) (d : ℤ), optimazeRewardWith false r d = r)
    ∧ tableDim0 = 19 := by
  refine ⟨fun r d => ?_, fun r d => rfl, tableDim0_eq⟩
  simp [optimazeRewardVal, optimazeRewardWith, optimazeRewardFlag]

/-- Claim C8: whenever the pre-update value differs from the target
(shaped reward plus discounted best next-state value), one train call
moves the entry strictly closer to the target and lands between the old
value and the target, never overshooting, since the learning rate 1/100
lies in (0,1). -/
theorem train_moves_toward_target :
    ∀ (Q : Qtab) (s : ℚ × ℚ) (a : ℤ) (r : ℚ) (s2 : ℚ × ℚ),
      Q (discretizeState s).1 (discretizeState s).2 a ≠ qTarget Q r s2 →
      |train Q s a r s2 (discretizeState s).1 (discretizeState s).2 a
          - qTarget Q r s2|
        < |Q (discretizeState s).1 (discretizeState s).2 a - qTarget Q r s2|
      ∧ |Q (discretizeState s).1 (discretizeState s).2 a
            - train Q s a r s2 (discretizeState s).1 (discretizeState s).2 a|
          + |train Q s a r s2 (discretizeState s).1 (discretizeState s).2 a
              - qTarget Q r s2|
        = |Q (discretizeState s).1 (discretizeState s).2 a - qTarget Q r s2| := by
  intro Q s a r s2 hne
  have hat : train Q s a r s2 (discretizeState s).1 (discretizeState s).2 a
      = Q (discretizeState s).1 (discretizeState s).2 a
        + learning_rate *
          (qTarget Q r s2
            - Q (discretizeState s).1 (discretizeState s).2 a) :=
    train_at Q s a r s2
  have h1 : train Q s a r s2 (discretizeState s).1 (discretizeState s).2 a
      - qTarget Q r s2
      = (99/100) *
        (Q (discretizeState s).1 (discretizeState s).2 a - qTarget Q r s2) := by
    rw [hat]
    simp only [learning_rate]
    ring
  have h2 : Q (discretizeState s).1 (discretizeState s).2 a
      - train Q s a r s2 (discretizeState s).1 (discretizeState s).2 a
      = (1/100) *
        (Q (discretizeState s).1 (discretizeState s).2 a - qTarget Q r s2) := by
    rw [hat]
    simp only [learning_rate]
    ring
  have hd : 0 < |Q (discretizeState s).1 (discretizeState s).2 a
      - qTarget Q r s2| :=
    abs_pos.mpr (sub_ne_zero.mpr hne)
  have h99 : |(99/100 : ℚ)| = 99/100 := abs_of_pos (by norm_num)
  have h01 : |(1/100 : ℚ)| = 1/100 := abs_of_pos (by norm_num)
  constructor
  · rw [h1, abs_mul, h99]
    linarith
  · rw [h1, h2, abs_mul, abs_mul, h99, h01]
    ring

/-- Witness for claim C8 at the all-zero table, the origin state and raw
reward 0: the pre-update value 0 differs from the target -15 and the
updated entry moves strictly closer to it. -/
theorem train_moves_toward_target_witness :
    |train qZero (0, 0) 0 0 (0, 0) (discretizeState (0, 0)).1
        (discretizeState (0, 0)).2 0 - qTarget qZero 0 (0, 0)|
      < |qZero (discretizeState (0, 0)).1 (discretizeState (0, 0)).2 0
          - qTarget qZero 0 (0, 0)| :=
  (train_moves_toward_target qZero (0, 0) 0 0 (0, 0)
    (by rw [qTarget_qZero_eval]; norm_num [qZero])).1

/-- Claim C9: Model.train applies its optimizer step to the online
network only: for every gradient computation, reward and frame-stack
tensor, the clone parameters after the call equal the clone parameters
before it. -/
theorem train_preserves_clone_params :
    ∀ (gradFn : List ℚ → List ℚ → ℚ → List ℚ → List ℚ) (r : ℚ)
      (x : List ℚ) (s : ModelState),
      (Model.train gradFn r x s).cloneW = s.cloneW :=
  fun _ _ _ _ => rfl

/-- Claim C10: no Model operation after construction writes the clone
parameters: forward passes leave the state alone, train writes only the
online weights, and update_weights only reads the clone, so after any
sequence of operations the clone parameters equal their starting
values. -/
theorem clone_params_never_written :
    ∀ (ops : List MOp) (s : ModelState),
      (runMOps s ops).cloneW = s.cloneW := by
  intro ops
  induction ops with
  | nil => exact fun s => rfl
  | cons op rest ih =>
    intro s
    have h : runMOps s (op :: rest) = runMOps (applyMOp s op) rest := rfl
    rw [h, ih]
    cases op <;> rfl
